import Mathlib

/-!
Shallow embedding of the databricks-devbox process supervisor
(src/databricks_devbox_go/process_manager.go, routes.go and the process
logger file) together with theorems checking the natural-language
specification against it.

Go maps are modelled as association lists with last-writer-wins update,
Go pointer-optional fields as `Option`, wall-clock instants and sampled
metric values as `Nat`, and operating-system interactions (process
probes, health probes, the log file) as explicit parameters of the
embedded functions.
-/

namespace Devbox

/-! ### Association-list model of Go maps -/

/-- Lookup in a Go map modelled as an association list
(first binding for the key wins; `mapSet` keeps keys unique). -/
def mapGet {α β : Type} [DecidableEq α] (k : α) : List (α × β) → Option β
  | [] => none
  | (k', v) :: rest => if k' = k then some v else mapGet k rest

/-- Go map assignment `m[k] = v`: replace the binding for `k` if present,
append it otherwise. -/
def mapSet {α β : Type} [DecidableEq α] (m : List (α × β)) (k : α) (v : β) :
    List (α × β) :=
  match m with
  | [] => [(k, v)]
  | (k', v') :: rest => if k' = k then (k, v) :: rest else (k', v') :: mapSet rest k v

theorem mapGet_mapSet_self {α β : Type} [DecidableEq α]
    (m : List (α × β)) (k : α) (v : β) : mapGet k (mapSet m k v) = some v := by
  induction m with
  | nil => simp [mapGet, mapSet]
  | cons hd tl ih =>
    obtain ⟨k', v'⟩ := hd
    by_cases h : k' = k
    · simp [mapGet, mapSet, h]
    · simp [mapGet, mapSet, h, ih]

theorem mapGet_mapSet_ne {α β : Type} [DecidableEq α]
    (m : List (α × β)) (k k' : α) (v : β) (h : k ≠ k') :
    mapGet k' (mapSet m k v) = mapGet k' m := by
  induction m with
  | nil => simp [mapGet, mapSet, h]
  | cons hd tl ih =>
    obtain ⟨k₀, v₀⟩ := hd
    by_cases h₀ : k₀ = k
    · subst h₀
      simp [mapGet, mapSet, h]
    · simp only [mapSet, if_neg h₀]
      by_cases h₁ : k₀ = k'
      · simp [mapGet, h₁]
      · simp [mapGet, h₁, ih]

theorem mem_keys_of_mapGet_isSome {α β : Type} [DecidableEq α]
    (m : List (α × β)) (k : α) (h : (mapGet k m).isSome = true) :
    k ∈ m.map Prod.fst := by
  induction m with
  | nil => simp [mapGet] at h
  | cons hd tl ih =>
    obtain ⟨k', v'⟩ := hd
    by_cases hk : k' = k
    · subst hk; simp
    · simp only [mapGet, if_neg hk] at h
      simpa using Or.inr (ih h)

/-! ### Data model: ServerStatus and ServerInstance -/

/-- `ServerStatus` from process_manager.go. -/
inductive ServerStatus : Type
  | running
  | stopped
  | failed
deriving DecidableEq, Repr

/-- `ServerInstance` from process_manager.go.  Pointer fields (`PID`,
`StartTime`, the metric samples) become `Option`; times and metric
samples are abstracted as `Nat`. -/
structure ServerInstance : Type where
  id : String
  name : String
  port : Nat
  workspacePath : String
  extensions : List String
  status : ServerStatus
  pid : Option Nat
  startTime : Option Nat
  command : List String
  uptime : Option Nat
  cpuPercent : Option Nat
  memoryMB : Option Nat
  lastUpdate : Option Nat
deriving DecidableEq, Repr

/-- The mutable fields of `ProcessManager` that the embedded operations
touch: the `servers` map, the `portMap` port index and the `nextPort`
cursor. -/
structure PMState : Type where
  servers : List (String × ServerInstance)
  portMap : List (Nat × String)
  nextPort : Nat
deriving DecidableEq, Repr

/-- The Status/PID coherence invariant of the specification:
`status = running` iff `pid` is set iff `start_time` is set. -/
def coherent (s : ServerInstance) : Prop :=
  (s.status = ServerStatus.running ↔ s.pid.isSome = true) ∧
    (s.status = ServerStatus.running ↔ s.startTime.isSome = true)

instance (s : ServerInstance) : Decidable (coherent s) := by
  unfold coherent; infer_instance

/-! ### Port allocator (`getNextAvailablePort`) -/

/-- Whether `port` is currently a key of the port index
(the `_, exists := pm.portMap[pm.nextPort]` test). -/
def portTaken (m : List (Nat × String)) (p : Nat) : Bool :=
  (mapGet p m).isSome

theorem filter_ge_succ_length_le (ks : List Nat) (c : Nat) :
    (ks.filter (fun p => decide (c + 1 ≤ p))).length ≤
      (ks.filter (fun p => decide (c ≤ p))).length := by
  induction ks with
  | nil => simp
  | cons k tl ih =>
    by_cases h1 : c + 1 ≤ k
    · have h0 : c ≤ k := Nat.le_of_succ_le h1
      simp [List.filter_cons, h1, h0]
      omega
    · by_cases h0 : c ≤ k
      · simp [List.filter_cons, h1, h0]
        omega
      · simp [List.filter_cons, h1, h0, ih]

theorem filter_ge_succ_length_lt (ks : List Nat) (c : Nat) (h : c ∈ ks) :
    (ks.filter (fun p => decide (c + 1 ≤ p))).length <
      (ks.filter (fun p => decide (c ≤ p))).length := by
  induction ks with
  | nil => cases h
  | cons k tl ih =>
    rcases List.mem_cons.mp h with hk | hk
    · subst hk
      have h1 : ¬ (c + 1 ≤ c) := by omega
      simp [List.filter_cons, h1]
      have := filter_ge_succ_length_le tl c
      omega
    · by_cases h1 : c + 1 ≤ k
      · have h0 : c ≤ k := Nat.le_of_succ_le h1
        simp [List.filter_cons, h1, h0]
        have := ih hk
        omega
      · by_cases h0 : c ≤ k
        · simp [List.filter_cons, h1, h0]
          have := ih hk
          omega
        · simp [List.filter_cons, h1, h0, ih hk]

/-- The scanning loop of `getNextAvailablePort`: advance the cursor until
it does not collide with a key of the port index, then return it.  The
Go loop has no upper bound; it terminates because the port index is
finite. -/
def allocFrom (m : List (Nat × String)) (cursor : Nat) : Nat :=
  if h : portTaken m cursor = true then allocFrom m (cursor + 1) else cursor
termination_by ((m.map Prod.fst).filter (fun p => decide (cursor ≤ p))).length
decreasing_by
  exact filter_ge_succ_length_lt (m.map Prod.fst) cursor
    (mem_keys_of_mapGet_isSome m cursor h)

theorem allocFrom_not_taken (m : List (Nat × String)) (cursor : Nat) :
    portTaken m (allocFrom m cursor) = false := by
  induction cursor using allocFrom.induct m with
  | case1 c h ih => rw [allocFrom, dif_pos h]; exact ih
  | case2 c h => rw [allocFrom, dif_neg h]; simpa using h

theorem allocFrom_ge (m : List (Nat × String)) (cursor : Nat) :
    cursor ≤ allocFrom m cursor := by
  induction cursor using allocFrom.induct m with
  | case1 c h ih => rw [allocFrom, dif_pos h]; exact Nat.le_of_succ_le ih
  | case2 c h => rw [allocFrom, dif_neg h]

theorem allocFrom_min (m : List (Nat × String)) (cursor : Nat) :
    ∀ q, cursor ≤ q → q < allocFrom m cursor → portTaken m q = true := by
  induction cursor using allocFrom.induct m with
  | case1 c h ih =>
    intro q hq hlt
    rcases Nat.eq_or_lt_of_le hq with rfl | hq'
    · exact h
    · rw [allocFrom, dif_pos h] at hlt
      exact ih q hq' hlt
  | case2 c h =>
    intro q hq hlt
    rw [allocFrom, dif_neg h] at hlt
    omega

/-- `getNextAvailablePort`: scan from the cursor, reserve the free port
in the port index under the empty-string owner, advance the cursor past
it, and return the port.  It has no upper bound and no failure case. -/
def getNextAvailablePort (pm : PMState) : Nat × PMState :=
  let port := allocFrom pm.portMap pm.nextPort
  (port, { pm with portMap := mapSet pm.portMap port "", nextPort := port + 1 })

/-! ### Supervisor lifecycle operations -/

/-- The `ServerInstance` literal built by `CreateServer` and
`CreateServerMetadata`: `Status: StatusStopped`, `StartTime: nil`,
`PID: nil`, no command and no samples. -/
def createdInstance (id name : String) (port : Nat) (workspacePath : String)
    (extensions : List String) : ServerInstance :=
  { id := id, name := name, port := port, workspacePath := workspacePath,
    extensions := extensions, status := ServerStatus.stopped,
    pid := none, startTime := none, command := [],
    uptime := none, cpuPercent := none, memoryMB := none, lastUpdate := none }

/-- Outcome of a workspace seed: `noSeed` when neither a zip path nor a
GitHub URL is given, otherwise whether `extractZipFile` respectively
`cloneGithubRepo` succeeds. -/
inductive SeedSource : Type
  | noSeed
  | zipFile (ok : Bool)
  | gitRepo (ok : Bool)
deriving DecidableEq, Repr

/-- Whether the seeding step of `CreateServer` fails. -/
def seedFailed : SeedSource → Bool
  | SeedSource.noSeed => false
  | SeedSource.zipFile ok => !ok
  | SeedSource.gitRepo ok => !ok

/-- Record a created directory (`os.MkdirAll`): already existing
directories are left as they are. -/
def mkDir (dirs : List String) (d : String) : List String :=
  if d ∈ dirs then dirs else dirs ++ [d]

deriving instance DecidableEq for Except

/-- Result of `CreateServer`: the manager state, the set of directories
on disk, whether `saveServers` ran, and either the created instance or
the Go error string. -/
structure CreateOutcome : Type where
  pm : PMState
  dirs : List String
  saved : Bool
  result : Except String ServerInstance
deriving DecidableEq, Repr

/-- `CreateServer` (the default `workspacePath == ""` route): allocate a
port, create `workspace/<id>`, seed the workspace (a failure returns the
error immediately), create `data/<id>`, insert the instance into both
maps and save.  Extension installation afterwards is non-fatal and does
not touch the registry, so it is omitted here. -/
def CreateServer (pm : PMState) (dirs : List String) (id name : String)
    (extensions : List String) (seed : SeedSource) : CreateOutcome :=
  let alloc := getNextAvailablePort pm
  let port := alloc.1
  let pm₁ := alloc.2
  let workspacePath := "workspace/" ++ id
  let dirs₁ := mkDir dirs workspacePath
  if seedFailed seed then
    { pm := pm₁, dirs := dirs₁, saved := false,
      result := Except.error "failed to initialize workspace" }
  else
    let dirs₂ := mkDir dirs₁ ("data/" ++ id)
    let server := createdInstance id name port workspacePath extensions
    { pm := { pm₁ with servers := mapSet pm₁.servers id server,
                       portMap := mapSet pm₁.portMap port id },
      dirs := dirs₂, saved := true, result := Except.ok server }

/-- The state mutation of a successful `StartServer` spawn:
`PID`, `StartTime`, `Status: StatusRunning` and the frozen command. -/
def startApply (pid now : Nat) (args : List String) (s : ServerInstance) :
    ServerInstance :=
  { s with pid := some pid, startTime := some now,
           status := ServerStatus.running, command := "code-server" :: args }

/-- `StartServer`: `Conflict` when already running; on spawn failure the
status is forced to `stopped` and the error is returned; on success the
instance becomes running with the fresh pid and start time.
`spawnResult` is the outcome of `cmd.Start()` (the pid on success). -/
def StartServer (pm : PMState) (id : String) (spawnResult : Option Nat)
    (now : Nat) (args : List String) : PMState × Option String :=
  match mapGet id pm.servers with
  | none => (pm, some ("server not found: " ++ id))
  | some s =>
    if s.status = ServerStatus.running then
      (pm, some "server is already running")
    else
      match spawnResult with
      | none =>
        let s' := { s with status := ServerStatus.stopped }
        ({ pm with servers := mapSet pm.servers id s' },
         some "failed to start code-server")
      | some pid =>
        let s' := startApply pid now args s
        ({ pm with servers := mapSet pm.servers id s' }, none)

/-- The state mutation of `StopServer` once its precondition holds:
immediately set `stopped` and clear `PID` and `StartTime`. -/
def stopApply (s : ServerInstance) : ServerInstance :=
  { s with status := ServerStatus.stopped, pid := none, startTime := none }

/-- `StopServer`: `NotFound` for an unknown id; the Go guard
`server.Status != StatusRunning || server.PID == nil` yields the
not-running error without touching anything; otherwise signal the child
(an external effect not reflected in the registry) and apply
`stopApply`, then save. -/
def StopServer (pm : PMState) (id : String) : Except String PMState :=
  match mapGet id pm.servers with
  | none => Except.error ("server not found: " ++ id)
  | some s =>
    if s.status ≠ ServerStatus.running ∨ s.pid = none then
      Except.error "server is not running"
    else
      Except.ok { pm with servers := mapSet pm.servers id (stopApply s) }

/-- The `POST /servers/:id/stop` handler: any `StopServer` error is
answered with HTTP 500 and the untouched state, success with 200. -/
def stopServerRoute (pm : PMState) (id : String) : Nat × PMState :=
  match StopServer pm id with
  | Except.error _ => (500, pm)
  | Except.ok pm' => (200, pm')

/-- The per-instance mutation of `monitorProcess` after `cmd.Wait()`
returns (`exitedWithError` is whether `Wait` reported a non-nil error,
i.e. a non-zero exit or a signal): both branches of the Go `if` set
`Status: StatusStopped`, then `PID` and `StartTime` are cleared. -/
def monitorProcessApply (exitedWithError : Bool) (s : ServerInstance) :
    ServerInstance :=
  let s₁ := if exitedWithError then { s with status := ServerStatus.stopped }
            else { s with status := ServerStatus.stopped }
  { s₁ with pid := none, startTime := none }

/-- `monitorProcess` at manager level: a no-op when the instance has been
deleted meanwhile, otherwise apply `monitorProcessApply` and save.  The
returned Bool is whether `saveServers` ran. -/
def monitorProcess (pm : PMState) (id : String) (exitedWithError : Bool) :
    PMState × Bool :=
  match mapGet id pm.servers with
  | none => (pm, false)
  | some s =>
    let s' := monitorProcessApply exitedWithError s
    ({ pm with servers := mapSet pm.servers id s' }, true)

/-- The per-instance step of `performHealthCheck` (30 s ticker): only
instances with `Status == StatusRunning && PID != nil` are probed; an
unhealthy probe marks the instance stopped and clears `PID` and
`StartTime`. -/
def performHealthCheckApply (isHealthy : Bool) (s : ServerInstance) :
    ServerInstance :=
  if s.status = ServerStatus.running ∧ s.pid.isSome = true then
    if isHealthy then s
    else { s with status := ServerStatus.stopped, pid := none, startTime := none }
  else s

/-- Outcome of probing a pid in `updateServerMetrics`:
`alive cpu mem` when `process.NewProcess` and `IsRunning` both succeed,
`dead` when the process no longer exists, `inaccessible` when
`process.NewProcess` itself fails. -/
inductive PidProbe : Type
  | alive (cpu mem : Nat)
  | dead
  | inaccessible
deriving DecidableEq, Repr

/-- The per-instance step of `updateServerMetrics` (1 s ticker): clear
samples for non-running instances; for a running instance with a live
pid record fresh samples; for a vanished or inaccessible pid mark the
instance stopped, clear `PID`, `StartTime` and the samples, and stamp
`LastUpdate`. -/
def updateServerMetricsApply (probe : PidProbe) (now : Nat)
    (s : ServerInstance) : ServerInstance :=
  if s.status ≠ ServerStatus.running ∨ s.pid = none ∨ s.startTime = none then
    { s with uptime := none, cpuPercent := none, memoryMB := none,
             lastUpdate := none }
  else
    match probe with
    | PidProbe.alive cpu mem =>
      { s with uptime := some (now - s.startTime.getD 0),
               cpuPercent := some cpu, memoryMB := some mem,
               lastUpdate := some now }
    | PidProbe.dead =>
      { s with status := ServerStatus.stopped, pid := none, startTime := none,
               uptime := none, cpuPercent := none, memoryMB := none,
               lastUpdate := some now }
    | PidProbe.inaccessible =>
      { s with status := ServerStatus.stopped, pid := none, startTime := none,
               uptime := none, cpuPercent := none, memoryMB := none,
               lastUpdate := some now }

/-- The per-instance status recomputation shared by the
`refreshServerStatus` and `refreshAllServersStatus` handlers in
routes.go: `newStatus` is `running` only for a pid-bearing healthy
instance; ONLY the `Status` field is written back (`PID`, `StartTime`
and the samples are left untouched).  `isHealthy` is the probe outcome,
consulted only when a pid is present, exactly as in the handler. -/
def refreshStatusApply (isHealthy : Bool) (s : ServerInstance) :
    ServerInstance :=
  let newStatus :=
    if s.pid.isSome = true then
      if isHealthy then ServerStatus.running else ServerStatus.stopped
    else ServerStatus.stopped
  { s with status := newStatus }

/-- `GetServerByPort`: the Go test
`if !exists || serverID == ""` makes a port reserved by an in-flight
create (empty-string owner) indistinguishable from an absent entry. -/
def GetServerByPort (pm : PMState) (port : Nat) : Except String ServerInstance :=
  match mapGet port pm.portMap with
  | none => Except.error "no server found on port"
  | some serverID =>
    if serverID = "" then Except.error "no server found on port"
    else
      match mapGet serverID pm.servers with
      | none => Except.error ("server not found: " ++ serverID)
      | some s => Except.ok s

/-! ### Log Bus (`LogManager` in routes.go) -/

/-- `LogEntry` from routes.go. -/
structure LogEntry : Type where
  timestamp : String
  level : String
  serverId : String
  serverName : String
  source : String
  message : String
deriving DecidableEq, Repr

/-- The ring-buffer part of `LogManager` (the WebSocket client set only
receives broadcasts and does not influence the ring). -/
structure LogManagerState : Type where
  logs : List LogEntry
  maxLogs : Nat
deriving DecidableEq, Repr

/-- `NewLogManager`: empty ring, `maxLogs: 10000`. -/
def NewLogManager : LogManagerState :=
  { logs := [], maxLogs := 10000 }

/-- `AddLog`: stamp a missing timestamp with the current time, append,
and when the ring has overflowed drop exactly the single oldest record
(`lm.logs = lm.logs[1:]`). -/
def AddLog (lm : LogManagerState) (now : String) (entry : LogEntry) :
    LogManagerState :=
  let entry' := if entry.timestamp = "" then { entry with timestamp := now }
                else entry
  let logs₁ := lm.logs ++ [entry']
  let logs₂ := if logs₁.length > lm.maxLogs then logs₁.tail else logs₁
  { lm with logs := logs₂ }

/-! ### Per-instance log files (`ProcessLogger.GetRecentLogs`) -/

/-- `GetRecentLogs` from the process logger file: the per-instance log
file is modelled as `none` (absent) or `some` list of its lines.  A
missing file yields an empty list and no error; otherwise the last
`lines` lines are returned. -/
def GetRecentLogs (fileLines : Option (List String)) (lines : Nat) :
    Except String (List String) :=
  match fileLines with
  | none => Except.ok []
  | some allLines =>
    if allLines.length ≤ lines then Except.ok allLines
    else Except.ok (allLines.drop (allLines.length - lines))

/-- `ProcessManager.GetServerLogs`: `NotFound` for an unknown id,
otherwise delegate to `GetRecentLogs` on the log file of that id. -/
def GetServerLogs (pm : PMState) (id : String)
    (fileLines : Option (List String)) (lines : Nat) :
    Except String (List String) :=
  match mapGet id pm.servers with
  | none => Except.error ("server not found: " ++ id)
  | some _ => GetRecentLogs fileLines lines

/-! ### Reverse proxy header computation -/

/-- An inbound request as the proxy handlers see it: whether the
transport is TLS, the header map (`Get` returns the empty string for a
missing key), the client IP and the Host. -/
structure InboundRequest : Type where
  tls : Bool
  headers : List (String × String)
  clientIP : String
  host : String
deriving DecidableEq, Repr

/-- `http.Header.Get`: the value for the key, or `""` when absent. -/
def headerGet (hs : List (String × String)) (k : String) : String :=
  match mapGet k hs with
  | some v => v
  | none => ""

/-- `coalesce` from the proxy file: first non-empty string. -/
def coalesce : List String → String
  | [] => ""
  | v :: rest => if v ≠ "" then v else coalesce rest

/-- The header rewrites performed by the `handleHTTPProxy` director for
backend `127.0.0.1:<port>`: forwarded headers, `Host`, and the
`Upgrade`/`Connection` pair when the inbound request carries `Upgrade`.
The scheme is `https` exactly when `c.Request.TLS != nil`. -/
def httpProxyHeaders (port : Nat) (req : InboundRequest) :
    List (String × String) :=
  let scheme := if req.tls then "https" else "http"
  let base :=
    [("X-Forwarded-For",
        coalesce [headerGet req.headers "X-Forwarded-For", req.clientIP]),
     ("X-Forwarded-Host",
        coalesce [headerGet req.headers "X-Forwarded-Host", req.host]),
     ("X-Forwarded-Preferred-Username",
        headerGet req.headers "X-Forwarded-Preferred-Username"),
     ("X-Forwarded-Proto", scheme),
     ("Host", "127.0.0.1:" ++ toString port)]
  if headerGet req.headers "Upgrade" ≠ "" then
    base ++ [("Upgrade", headerGet req.headers "Upgrade"),
             ("Connection", "upgrade")]
  else base

/-- Whether `pat` occurs at the start of `s`. -/
def listStartsWith : List Char → List Char → Bool
  | _, [] => true
  | [], _ :: _ => false
  | a :: as, p :: ps => p = a && listStartsWith as ps

/-- Whether `pat` occurs contiguously somewhere in `s`. -/
def listContainsSub (s pat : List Char) : Bool :=
  if listStartsWith s pat then true
  else
    match s with
    | [] => false
    | _ :: rest => listContainsSub rest pat

/-- `strings.Contains`. -/
def containsSubstring (s pat : String) : Bool :=
  listContainsSub s.data pat.data

/-- The `isStreamlitPath` test of `handleWebSocketProxy`:
`strings.Contains(path, "_stcore/stream")`. -/
def isStreamlitPath (path : String) : Bool :=
  containsSubstring path "_stcore/stream"

/-- The target URL `handleWebSocketProxy` dials:
`ws://127.0.0.1:<port><path>` (path defaulting to `/`), plus the raw
query when present. -/
def wsTargetURL (port : Nat) (path rawQuery : String) : String :=
  let base :=
    if path ≠ "" then "ws://127.0.0.1:" ++ toString port ++ path
    else "ws://127.0.0.1:" ++ toString port ++ "/"
  if rawQuery ≠ "" then base ++ "?" ++ rawQuery else base

/-- The headers `handleWebSocketProxy` sends on the backend dial: they
start empty, and ONLY for a Streamlit path (`_stcore/stream` infix) are
the synthesized `Origin` and the forwarded `Cookie` / `User-Agent`
added. -/
def wsDialHeaders (port : Nat) (path : String) (req : InboundRequest) :
    List (String × String) :=
  if isStreamlitPath path then
    let h₁ := [("Origin", "http://localhost:" ++ toString port)]
    let h₂ := if headerGet req.headers "Cookie" ≠ "" then
                h₁ ++ [("Cookie", headerGet req.headers "Cookie")]
              else h₁
    let h₃ := if headerGet req.headers "User-Agent" ≠ "" then
                h₂ ++ [("User-Agent", headerGet req.headers "User-Agent")]
              else h₂
    h₃
  else []

/-! ### Concrete fixtures used by counterexamples and witnesses -/

/-- A running instance with pid 4242 on port 8500. -/
def exRunning : ServerInstance :=
  { id := "srv-1", name := "alpha", port := 8500,
    workspacePath := "workspace/srv-1", extensions := [],
    status := ServerStatus.running, pid := some 4242, startTime := some 100,
    command := [], uptime := none, cpuPercent := none, memoryMB := none,
    lastUpdate := none }

/-- The same instance, stopped. -/
def exStopped : ServerInstance :=
  { exRunning with status := ServerStatus.stopped, pid := none,
                   startTime := none }

/-- A manager holding only the stopped instance. -/
def pmStopped : PMState :=
  { servers := [("srv-1", exStopped)], portMap := [(8500, "srv-1")],
    nextPort := 8501 }

/-- A manager holding only the running instance. -/
def pmRunning : PMState :=
  { servers := [("srv-1", exRunning)], portMap := [(8500, "srv-1")],
    nextPort := 8501 }

/-- An empty manager with the default cursor 8500. -/
def pmEmpty : PMState :=
  { servers := [], portMap := [], nextPort := 8500 }

/-- A manager whose port index holds only a create-reservation
(empty-string owner) for port 8500. -/
def pmReserved : PMState :=
  { servers := [], portMap := [(8500, "")], nextPort := 8501 }

/-! ### Claim C5: idempotent Stop -/

/-- C5 counterexample: the claim says a Stop on a non-running instance is
surfaced over HTTP as status 409, but the stop route answers every
`StopServer` error with status 500 (`http.StatusInternalServerError`). -/
theorem stopRoute_returns_500_cx :
    stopServerRoute pmStopped "srv-1" = (500, pmStopped) ∧ (500 : Nat) ≠ 409 := by
  constructor
  · rfl
  · decide

/-- C5 amended: calling Stop on an instance that is not running (or has
no pid) returns the not-running error and leaves the instance record and
the registry completely unchanged; over HTTP this error is surfaced as
status 500, not 409. -/
theorem stopServer_not_running_unchanged (pm : PMState) (id : String)
    (s : ServerInstance) (hs : mapGet id pm.servers = some s)
    (hnr : s.status ≠ ServerStatus.running ∨ s.pid = none) :
    StopServer pm id = Except.error "server is not running" ∧
    stopServerRoute pm id = (500, pm) := by
  have herr : StopServer pm id = Except.error "server is not running" := by
    unfold StopServer
    rw [hs]
    simp only [if_pos hnr]
  exact ⟨herr, by unfold stopServerRoute; rw [herr]⟩

/-- C5 witness: the amended theorem applied to the concrete stopped
instance. -/
theorem stopServer_not_running_unchanged_witness :
    StopServer pmStopped "srv-1" = Except.error "server is not running" ∧
    stopServerRoute pmStopped "srv-1" = (500, pmStopped) :=
  stopServer_not_running_unchanged pmStopped "srv-1" exStopped (by rfl)
    (Or.inl (by decide))

/-! ### Claim C8: bounded log memory -/

/-- C8: after every emit the Log Bus holds at most 10000 records
(`NewLogManager` sets `maxLogs` to 10000); emitting into a full bus
appends the new record and evicts exactly the single oldest one, so the
survivors are the most recent records in emission order. -/
theorem addLog_bounded_evicts_oldest (lm : LogManagerState) (now : String)
    (entry : LogEntry) (hmax : lm.maxLogs = 10000)
    (hlen : lm.logs.length ≤ 10000) :
    NewLogManager.maxLogs = 10000 ∧
    (AddLog lm now entry).logs.length ≤ 10000 ∧
    (lm.logs.length = 10000 →
      (AddLog lm now entry).logs =
        lm.logs.tail ++
          [if entry.timestamp = "" then { entry with timestamp := now }
           else entry]) := by
  refine ⟨rfl, ?_, ?_⟩
  · unfold AddLog
    by_cases hfull : (lm.logs ++
        [if entry.timestamp = "" then { entry with timestamp := now }
         else entry]).length > lm.maxLogs
    · simp only [hfull, if_pos]
      simp [List.length_tail, List.length_append]
      omega
    · simp only [hfull, if_neg, ite_false]
      rw [hmax] at hfull
      simpa using Nat.le_of_not_lt hfull
  · intro hfull10k
    unfold AddLog
    have hgt : (lm.logs ++
        [if entry.timestamp = "" then { entry with timestamp := now }
         else entry]).length > lm.maxLogs := by
      simp [List.length_append, hmax, hfull10k]
    simp only [hgt, if_pos]
    cases hcons : lm.logs with
    | nil => rw [hcons] at hfull10k; simp at hfull10k
    | cons a t => simp [hcons]

/-- C8 witness: the theorem applied to an empty bus with `maxLogs`
10000. -/
theorem addLog_bounded_evicts_oldest_witness :
    NewLogManager.maxLogs = 10000 ∧
    (AddLog NewLogManager "t0"
      { timestamp := "", level := "INFO", serverId := "", serverName := "",
        source := "system", message := "hello" }).logs.length ≤ 10000 ∧
    (NewLogManager.logs.length = 10000 →
      (AddLog NewLogManager "t0"
        { timestamp := "", level := "INFO", serverId := "", serverName := "",
          source := "system", message := "hello" }).logs =
        NewLogManager.logs.tail ++
          [if ("" : String) = "" then
            { timestamp := "t0", level := "INFO", serverId := "",
              serverName := "", source := "system", message := "hello" }
           else
            { timestamp := "", level := "INFO", serverId := "",
              serverName := "", source := "system", message := "hello" }]) :=
  addLog_bounded_evicts_oldest NewLogManager "t0"
    { timestamp := "", level := "INFO", serverId := "", serverName := "",
      source := "system", message := "hello" } (by rfl) (by decide)

/-! ### Claim C9: per-instance log tail -/

/-- C9: fetching logs for an existing instance whose per-instance log
file is absent returns an empty list and no error; for an existing file
with n lines and a requested tail of k lines, exactly min(n, k)
trailing lines come back in file order. -/
theorem getServerLogs_tail_spec (pm : PMState) (id : String)
    (s : ServerInstance) (h : mapGet id pm.servers = some s) (lines : Nat) :
    GetServerLogs pm id none lines = Except.ok [] ∧
    (∀ ls : List String,
      GetServerLogs pm id (some ls) lines =
        Except.ok (ls.drop (ls.length - lines)) ∧
      (ls.drop (ls.length - lines)).length = min ls.length lines) := by
  constructor
  · simp [GetServerLogs, h, GetRecentLogs]
  · intro ls
    constructor
    · simp only [GetServerLogs, h, GetRecentLogs]
      by_cases hle : ls.length ≤ lines
      · rw [if_pos hle, Nat.sub_eq_zero_of_le hle, List.drop_zero]
      · rw [if_neg hle]
    · rw [List.length_drop]
      omega

/-- C9 witness: the theorem applied to the stopped fixture, a three-line
file and a requested tail of two lines. -/
theorem getServerLogs_tail_spec_witness :
    GetServerLogs pmStopped "srv-1" none 2 = Except.ok [] ∧
    GetServerLogs pmStopped "srv-1" (some ["l1", "l2", "l3"]) 2 =
      Except.ok (["l1", "l2", "l3"].drop (["l1", "l2", "l3"].length - 2)) :=
  ⟨(getServerLogs_tail_spec pmStopped "srv-1" exStopped (by rfl) 2).1,
   ((getServerLogs_tail_spec pmStopped "srv-1" exStopped (by rfl) 2).2
     ["l1", "l2", "l3"]).1⟩

/-! ### Claim C10: create-reservations are invisible to port lookup -/

/-- C10: a port reserved by an in-flight create carries the empty-string
owner in the port index, and `GetServerByPort` treats such a reservation
exactly like an absent entry; whenever it does return an instance, that
instance exists in the registry under a non-empty owner id. -/
theorem reserved_port_not_routed (pm : PMState) (port : Nat) :
    (mapGet port pm.portMap = some "" →
      GetServerByPort pm port = Except.error "no server found on port") ∧
    (∀ s, GetServerByPort pm port = Except.ok s →
      ∃ sid, mapGet port pm.portMap = some sid ∧ sid ≠ "" ∧
        mapGet sid pm.servers = some s) := by
  constructor
  · intro h
    simp [GetServerByPort, h]
  · intro s hs
    unfold GetServerByPort at hs
    cases hpm : mapGet port pm.portMap with
    | none =>
      simp only [hpm] at hs
      exact Except.noConfusion hs
    | some sid =>
      simp only [hpm] at hs
      by_cases hsid : sid = ""
      · rw [if_pos hsid] at hs
        exact Except.noConfusion hs
      · rw [if_neg hsid] at hs
        cases hsrv : mapGet sid pm.servers with
        | none =>
          simp only [hsrv] at hs
          exact Except.noConfusion hs
        | some s' =>
          simp only [hsrv, Except.ok.injEq] at hs
          subst hs
          exact ⟨sid, rfl, hsid, hsrv⟩

/-- C10 witness: reservation lookup on the reserved fixture, and a
successful lookup on the running fixture. -/
theorem reserved_port_not_routed_witness :
    GetServerByPort pmReserved 8500 = Except.error "no server found on port" ∧
    (∃ sid, mapGet 8500 pmRunning.portMap = some sid ∧ sid ≠ "" ∧
      mapGet sid pmRunning.servers = some exRunning) :=
  ⟨(reserved_port_not_routed pmReserved 8500).1 (by rfl),
   (reserved_port_not_routed pmRunning 8500).2 exRunning (by rfl)⟩

/-! ### Claim C1: Status/PID coherence -/

/-- C1 counterexample: the refresh-status recomputation applied to a
coherent running instance whose health probe fails keeps `pid` and
`start_time` set while writing `status = stopped`, so the coherence
invariant is broken, contrary to the claim that refresh leaves pid and
start_time absent after a running→stopped change. -/
theorem refreshStatus_breaks_coherence_cx :
    coherent exRunning ∧
    (refreshStatusApply false exRunning).status = ServerStatus.stopped ∧
    (refreshStatusApply false exRunning).pid = some 4242 ∧
    (refreshStatusApply false exRunning).startTime = some 100 ∧
    ¬ coherent (refreshStatusApply false exRunning) := by
  refine ⟨by decide, rfl, rfl, rfl, by decide⟩

/-- C1 amended: Status/PID coherence is preserved by create, start (both
the success and the spawn-failure mutation), stop, the reaper, the
health check and the metrics update; the refresh-status and refresh-all
recomputation, however, writes only the status field — it never touches
`pid` or `start_time`, and with a failing probe it always produces
`stopped` — so a running instance with a present pid that fails the
probe ends up stopped with pid and start_time still present. -/
theorem statusPidCoherence_per_operation :
    (∀ (id name : String) (port : Nat) (wp : String) (exts : List String),
      coherent (createdInstance id name port wp exts)) ∧
    (∀ (pid now : Nat) (args : List String) (s : ServerInstance),
      coherent (startApply pid now args s)) ∧
    (∀ s : ServerInstance, coherent s → s.status ≠ ServerStatus.running →
      coherent { s with status := ServerStatus.stopped }) ∧
    (∀ s : ServerInstance, coherent (stopApply s)) ∧
    (∀ (e : Bool) (s : ServerInstance), coherent (monitorProcessApply e s)) ∧
    (∀ (h : Bool) (s : ServerInstance), coherent s →
      coherent (performHealthCheckApply h s)) ∧
    (∀ (probe : PidProbe) (now : Nat) (s : ServerInstance), coherent s →
      coherent (updateServerMetricsApply probe now s)) ∧
    (∀ (h : Bool) (s : ServerInstance),
      (refreshStatusApply h s).pid = s.pid ∧
      (refreshStatusApply h s).startTime = s.startTime ∧
      (refreshStatusApply false s).status = ServerStatus.stopped) := by
  refine ⟨?_, ?_, ?_, ?_, ?_, ?_, ?_, ?_⟩
  · intro id name port wp exts
    simp [coherent, createdInstance]
  · intro pid now args s
    simp [coherent, startApply]
  · intro s hcoh hnr
    have hpid : s.pid.isSome = false := by
      rcases hcoh with ⟨h1, _⟩
      cases hp : s.pid.isSome
      · rfl
      · exact absurd (h1.mpr hp) hnr
    have hst : s.startTime.isSome = false := by
      rcases hcoh with ⟨_, h2⟩
      cases hp : s.startTime.isSome
      · rfl
      · exact absurd (h2.mpr hp) hnr
    simp [coherent, hpid, hst]
  · intro s
    simp [coherent, stopApply]
  · intro e s
    cases e <;> simp [coherent, monitorProcessApply]
  · intro h s hcoh
    unfold performHealthCheckApply
    split_ifs with h1 h2
    · exact hcoh
    · simp [coherent]
    · exact hcoh
  · intro probe now s hcoh
    unfold updateServerMetricsApply
    split_ifs with h1
    · rcases hcoh with ⟨c1, c2⟩
      exact ⟨c1, c2⟩
    · cases probe with
      | alive cpu mem =>
        rcases hcoh with ⟨c1, c2⟩
        exact ⟨c1, c2⟩
      | dead => simp [coherent]
      | inaccessible => simp [coherent]
  · intro h s
    refine ⟨rfl, rfl, ?_⟩
    unfold refreshStatusApply
    cases hp : s.pid.isSome <;> simp [hp]

/-- C1 witness: the coherence-preservation clauses of the amended
theorem applied to the running fixture and the health check with a
failing probe. -/
theorem statusPidCoherence_per_operation_witness :
    coherent exRunning ∧ coherent (performHealthCheckApply false exRunning) :=
  ⟨by decide,
   statusPidCoherence_per_operation.2.2.2.2.2.1 false exRunning (by decide)⟩

/-! ### Claim C2: reaper exit disposition -/

/-- C2 counterexample: the claim says a non-zero or signaled exit makes
the reaper record `failed`, but both branches of `monitorProcess` write
`StatusStopped`: applied to the running fixture with an error exit, the
status is stopped and not failed. -/
theorem reaper_nonzero_exit_cx :
    (monitorProcessApply true exRunning).status = ServerStatus.stopped ∧
    (monitorProcessApply true exRunning).status ≠ ServerStatus.failed := by
  refine ⟨rfl, by decide⟩

/-- C2 amended: for every child whose monitor wakes on `cmd.Wait()`, the
instance (when still registered) is set to `stopped` regardless of the
exit disposition — also for non-zero or signaled exits — with `pid` and
`start_time` cleared and a snapshot persisted. -/
theorem monitorProcess_sets_stopped (pm : PMState) (id : String) (e : Bool)
    (s : ServerInstance) (h : mapGet id pm.servers = some s) :
    (monitorProcess pm id e).2 = true ∧
    mapGet id (monitorProcess pm id e).1.servers =
      some { s with status := ServerStatus.stopped, pid := none,
                    startTime := none } ∧
    (∀ e' : Bool,
      (monitorProcessApply e' s).status = ServerStatus.stopped ∧
      (monitorProcessApply e' s).pid = none ∧
      (monitorProcessApply e' s).startTime = none) := by
  have happly : ∀ e' : Bool, monitorProcessApply e' s =
      { s with status := ServerStatus.stopped, pid := none,
               startTime := none } := by
    intro e'
    cases e' <;> rfl
  refine ⟨?_, ?_, ?_⟩
  · simp only [monitorProcess, h]
  · simp only [monitorProcess, h]
    rw [happly e, mapGet_mapSet_self]
  · intro e'
    rw [happly e']
    exact ⟨rfl, rfl, rfl⟩

/-- C2 witness: the amended theorem applied to the running fixture with
an error exit. -/
theorem monitorProcess_sets_stopped_witness :
    (monitorProcess pmRunning "srv-1" true).2 = true ∧
    mapGet "srv-1" (monitorProcess pmRunning "srv-1" true).1.servers =
      some { exRunning with status := ServerStatus.stopped, pid := none,
                            startTime := none } :=
  ⟨(monitorProcess_sets_stopped pmRunning "srv-1" true exRunning (by rfl)).1,
   (monitorProcess_sets_stopped pmRunning "srv-1" true exRunning (by rfl)).2.1⟩

/-! ### Claim C3: port allocator exhaustion -/

/-- C3 counterexample: with every port of a configured range
[8500, 8500] already assigned and the cursor at its start, the allocator
returns 8501 — outside the range — instead of failing with Exhausted
(its return type `Nat × PMState` has no failure case at all). -/
theorem allocator_ignores_range_cx :
    (getNextAvailablePort
      { servers := [], portMap := [(8500, "a")], nextPort := 8500 }).1 = 8501 ∧
    ¬ (8501 ≤ 8500) := by
  constructor
  · show allocFrom [(8500, "a")] 8500 = 8501
    rw [allocFrom, dif_pos (by decide)]
    rw [allocFrom, dif_neg (by decide)]
  · decide

/-- C3 amended: the allocator never fails: it returns the smallest port
at or above the cursor that is not a key of the port index — with no
upper bound, so it is not confined to any configured [start, end] range
— reserves it in the index under the empty-string owner and advances the
cursor past it, leaving the servers map untouched. -/
theorem getNextAvailablePort_spec (pm : PMState) :
    portTaken pm.portMap (getNextAvailablePort pm).1 = false ∧
    pm.nextPort ≤ (getNextAvailablePort pm).1 ∧
    (∀ q, pm.nextPort ≤ q → q < (getNextAvailablePort pm).1 →
      portTaken pm.portMap q = true) ∧
    mapGet (getNextAvailablePort pm).1 (getNextAvailablePort pm).2.portMap =
      some "" ∧
    (getNextAvailablePort pm).2.nextPort = (getNextAvailablePort pm).1 + 1 ∧
    (getNextAvailablePort pm).2.servers = pm.servers := by
  refine ⟨allocFrom_not_taken pm.portMap pm.nextPort,
    allocFrom_ge pm.portMap pm.nextPort,
    allocFrom_min pm.portMap pm.nextPort,
    mapGet_mapSet_self pm.portMap (allocFrom pm.portMap pm.nextPort) "",
    rfl, rfl⟩

/-- C3 witness: the amended theorem applied to the full single-port
index. -/
theorem getNextAvailablePort_spec_witness :
    portTaken [(8500, "a")]
      (getNextAvailablePort
        { servers := [], portMap := [(8500, "a")], nextPort := 8500 }).1 =
      false ∧
    mapGet
      (getNextAvailablePort
        { servers := [], portMap := [(8500, "a")], nextPort := 8500 }).1
      (getNextAvailablePort
        { servers := [], portMap := [(8500, "a")], nextPort := 8500 }).2.portMap =
      some "" :=
  ⟨(getNextAvailablePort_spec
      { servers := [], portMap := [(8500, "a")], nextPort := 8500 }).1,
   (getNextAvailablePort_spec
      { servers := [], portMap := [(8500, "a")], nextPort := 8500 }).2.2.2.1⟩

/-! ### Claim C4: Create is not rolled back on seed failure -/

/-- C4 counterexample: a create on an empty manager whose zip seed fails
returns the seed error, yet the allocated port 8500 is still reserved in
the port index (empty-string owner, so not released) and the created
workspace directory is still on disk. -/
theorem createServer_seed_failure_cx :
    (CreateServer pmEmpty [] "id-1" "alpha" []
      (SeedSource.zipFile false)).result =
      Except.error "failed to initialize workspace" ∧
    (CreateServer pmEmpty [] "id-1" "alpha" []
      (SeedSource.zipFile false)).pm.portMap = [(8500, "")] ∧
    (CreateServer pmEmpty [] "id-1" "alpha" []
      (SeedSource.zipFile false)).dirs = ["workspace/id-1"] := by
  have halloc : allocFrom ([] : List (Nat × String)) 8500 = 8500 := by
    rw [allocFrom, dif_neg (by decide)]
  refine ⟨?_, ?_, ?_⟩ <;>
    simp [CreateServer, getNextAvailablePort, halloc, seedFailed, mkDir,
      mapSet, pmEmpty]

/-- C4 amended: when the seeding step fails, `CreateServer` returns the
seed error without saving a snapshot and without inserting the instance
— the servers map is exactly as before — but its partial effects are NOT
rolled back: the allocated port stays reserved in the port index under
the empty-string owner, the cursor stays advanced, and the created
workspace directory is not removed. -/
theorem createServer_seed_failure_partial_effects (pm : PMState)
    (dirs : List String) (id name : String) (exts : List String)
    (seed : SeedSource) (hfail : seedFailed seed = true) :
    (CreateServer pm dirs id name exts seed).result =
      Except.error "failed to initialize workspace" ∧
    (CreateServer pm dirs id name exts seed).saved = false ∧
    (CreateServer pm dirs id name exts seed).pm.servers = pm.servers ∧
    mapGet (allocFrom pm.portMap pm.nextPort)
      (CreateServer pm dirs id name exts seed).pm.portMap = some "" ∧
    (CreateServer pm dirs id name exts seed).pm.nextPort =
      allocFrom pm.portMap pm.nextPort + 1 ∧
    ("workspace/" ++ id) ∈ (CreateServer pm dirs id name exts seed).dirs := by
  have hmem : ("workspace/" ++ id) ∈ mkDir dirs ("workspace/" ++ id) := by
    unfold mkDir
    split_ifs with hin
    · exact hin
    · simp
  refine ⟨?_, ?_, ?_, ?_, ?_, ?_⟩ <;>
    simp [CreateServer, getNextAvailablePort, hfail, mapGet_mapSet_self, hmem]

/-- C4 witness: the amended theorem applied to the empty manager and the
failing zip seed. -/
theorem createServer_seed_failure_partial_effects_witness :
    (CreateServer pmEmpty [] "id-1" "alpha" []
      (SeedSource.zipFile false)).saved = false ∧
    mapGet (allocFrom pmEmpty.portMap pmEmpty.nextPort)
      (CreateServer pmEmpty [] "id-1" "alpha" []
        (SeedSource.zipFile false)).pm.portMap = some "" :=
  ⟨(createServer_seed_failure_partial_effects pmEmpty [] "id-1" "alpha" []
      (SeedSource.zipFile false) (by rfl)).2.1,
   (createServer_seed_failure_partial_effects pmEmpty [] "id-1" "alpha" []
      (SeedSource.zipFile false) (by rfl)).2.2.2.1⟩

/-! ### Claim C6: forwarded-proto computation -/

/-- C6 counterexample: an inbound plain-HTTP request that carries
`X-Forwarded-Proto: https` is forwarded with outbound
`X-Forwarded-Proto: http` — the director computes the scheme from
`c.Request.TLS` alone and ignores the inbound header, contrary to the
claimed TLS-or-headers disjunction. -/
theorem forwardedProto_ignores_inbound_cx :
    headerGet
      { tls := false, headers := [("X-Forwarded-Proto", "https")],
        clientIP := "10.0.0.1", host := "example.com"
        : InboundRequest }.headers "X-Forwarded-Proto" = "https" ∧
    headerGet
      (httpProxyHeaders 8500
        { tls := false, headers := [("X-Forwarded-Proto", "https")],
          clientIP := "10.0.0.1", host := "example.com" })
      "X-Forwarded-Proto" = "http" := by
  constructor
  · rfl
  · decide

/-- C6 amended: for every request forwarded through the HTTP proxy path,
the outbound X-Forwarded-Proto header equals https if and only if the
inbound connection is TLS; the inbound X-Forwarded-Proto and
X-Forwarded-Ssl headers play no role in it. -/
theorem httpProxy_forwardedProto_tls_only (port : Nat) (req : InboundRequest) :
    headerGet (httpProxyHeaders port req) "X-Forwarded-Proto" =
      if req.tls then "https" else "http" := by
  unfold httpProxyHeaders
  split_ifs with hup htls htls
  · simp +decide [headerGet, mapGet, htls]
  · simp +decide [headerGet, mapGet, htls]
  · simp +decide [headerGet, mapGet, htls]
  · simp +decide [headerGet, mapGet, htls]

/-! ### Claim C7: WebSocket dial headers -/

/-- C7 counterexample: a WebSocket upgrade for the root path (not a
Streamlit path), whose client sends a Cookie, is dialled with an empty
header set — no synthesized Origin and no forwarded Cookie, contrary to
the claim that every WebSocket dial carries them. -/
theorem wsDialHeaders_nonStreamlit_cx :
    wsDialHeaders 8500 "/"
      { tls := false, headers := [("Cookie", "sid=1"), ("User-Agent", "UA")],
        clientIP := "10.0.0.1", host := "example.com" } = [] ∧
    headerGet
      (wsDialHeaders 8500 "/"
        { tls := false, headers := [("Cookie", "sid=1"), ("User-Agent", "UA")],
          clientIP := "10.0.0.1", host := "example.com" }) "Origin" ≠
      "http://localhost:8500" := by
  constructor
  · decide
  · decide

/-- C7 amended: the backend dial of the WebSocket proxy sends an empty
header set unless the path contains `_stcore/stream` (the
Streamlit-enhanced case); only for such paths does it synthesize
`Origin: http://localhost:<port>` and forward the client Cookie and
User-Agent when present. -/
theorem wsDialHeaders_streamlit_only (port : Nat) (path : String)
    (req : InboundRequest) :
    (isStreamlitPath path = false → wsDialHeaders port path req = []) ∧
    (isStreamlitPath path = true →
      headerGet (wsDialHeaders port path req) "Origin" =
        "http://localhost:" ++ toString port ∧
      (headerGet req.headers "Cookie" ≠ "" →
        headerGet (wsDialHeaders port path req) "Cookie" =
          headerGet req.headers "Cookie") ∧
      (headerGet req.headers "User-Agent" ≠ "" →
        headerGet (wsDialHeaders port path req) "User-Agent" =
          headerGet req.headers "User-Agent")) := by
  constructor
  · intro h
    simp [wsDialHeaders, h]
  · intro h
    unfold wsDialHeaders
    rw [h]
    simp only [if_true]
    refine ⟨?_, ?_, ?_⟩
    · split_ifs with hc hu hu <;> simp +decide [headerGet, mapGet]
    · intro hc
      split_ifs with hc' hu hu <;>
        first
          | (exact absurd hc' hc)
          | simp +decide [headerGet, mapGet]

    · intro hu
      split_ifs with hc hu' hu' <;>
        first
          | (exact absurd hu' hu)
          | simp +decide [headerGet, mapGet]

/-- C7 witness: the amended theorem at a Streamlit path with a Cookie and
at the root path. -/
theorem wsDialHeaders_streamlit_only_witness :
    wsDialHeaders 8500 "/"
      { tls := false, headers := [("Cookie", "sid=1")],
        clientIP := "10.0.0.1", host := "example.com" } = [] ∧
    headerGet
      (wsDialHeaders 8500 "/app/_stcore/stream"
        { tls := false, headers := [("Cookie", "sid=1")],
          clientIP := "10.0.0.1", host := "example.com" }) "Origin" =
      "http://localhost:" ++ toString 8500 :=
  ⟨(wsDialHeaders_streamlit_only 8500 "/"
      { tls := false, headers := [("Cookie", "sid=1")],
        clientIP := "10.0.0.1", host := "example.com" }).1 (by decide),
   ((wsDialHeaders_streamlit_only 8500 "/app/_stcore/stream"
      { tls := false, headers := [("Cookie", "sid=1")],
        clientIP := "10.0.0.1", host := "example.com" }).2 (by decide)).1⟩

end Devbox
